import Mathlib

/-!
Verification development for `report_sentinel.py`, a scheduled watchdog that
checks each configured report directory for a date-stamped report file
(`DD-MM-YYYY.csv`), alerts by email on the first missing report, and invokes
an external recovery tool once.

Shallow embedding: time is measured in minutes since the Unix epoch (UTC);
the `pytz` US/Eastern conversion is embedded, as in the tz database, by a
finite list of UTC transition instants with their offsets.  Directories are
lists of file names; the SMTP and subprocess collaborators are modelled by
outcome oracles.
-/

namespace ReportSentinel

/-- Calendar date (as a day number since the Unix epoch) of a local
wall-clock time given in minutes. -/
def localDate (lt : Int) : Int := lt / 1440

/-- Hour-of-day (0..23) of a local wall-clock time given in minutes. -/
def localHour (lt : Int) : Int := lt % 1440 / 60

/-- The branch of `get_expected_report_date` on the already-converted local
time: before the 17:00 cutoff the previous day's date, otherwise today's. -/
def expectedOfLocal (lt : Int) : Int :=
  if localHour lt < 17 then localDate lt - 1 else localDate lt

/-- Offset lookup in a tz-style transition table: the offset attached to the
last transition instant `≤ t`, or `base` when `t` precedes every transition. -/
def offsetOf (base : Int) (trans : List (Int × Int)) (t : Int) : Int :=
  trans.foldl (fun acc p => if p.1 ≤ t then p.2 else acc) base

/-- US/Eastern transition table (UTC minute of change, new offset in
minutes), 2023 through 2027: second Sunday of March 07:00 UTC to EDT (-240),
first Sunday of November 06:00 UTC back to EST (-300). -/
def usEasternTransitions : List (Int × Int) :=
  [(27976740, -240), (28319400, -300),
   (28500900, -240), (28843560, -300),
   (29025060, -240), (29367720, -300),
   (29549220, -240), (29891880, -300),
   (30083460, -240), (30426120, -300)]

/-- UTC-to-US/Eastern offset, in minutes, at UTC minute `t`. -/
def usEasternOffset (t : Int) : Int := offsetOf (-300) usEasternTransitions t

/-- The US/Eastern local wall-clock minute corresponding to UTC minute `t`
(the `astimezone(pytz.timezone("US/Eastern"))` step). -/
def localET (t : Int) : Int := t + usEasternOffset t

/-- `get_expected_report_date`: convert the current UTC time to US/Eastern;
before the 17:00 local cutoff return yesterday's date, otherwise today's. -/
def get_expected_report_date (t : Int) : Int := expectedOfLocal (localET t)

/-- A transition table is safe when the expected date does not decrease
across any transition instant. -/
def safeTrans (base : Int) (trans : List (Int × Int)) : Prop :=
  ∀ p ∈ trans,
    expectedOfLocal (p.1 - 1 + offsetOf base trans (p.1 - 1)) ≤
      expectedOfLocal (p.1 + p.2)

/-- Civil (year, month, day) of a day number counted from 1970-01-01,
proleptic Gregorian (standard era-based conversion, floor division). -/
def civilFromDays (z0 : Int) : Int × Int × Int :=
  let z := z0 + 719468
  let era := z / 146097
  let doe := z - era * 146097
  let yoe := (doe - doe / 1460 + doe / 36524 - doe / 146096) / 365
  let y := yoe + era * 400
  let doy := doe - (365 * yoe + yoe / 4 - yoe / 100)
  let mp := (5 * doy + 2) / 153
  let d := doy - (153 * mp + 2) / 5 + 1
  let m := mp + (if mp < 10 then 3 else -9)
  (if m ≤ 2 then y + 1 else y, m, d)

/-- Two-digit zero padding, as in `strftime` fields `%d` and `%m`. -/
def pad2 (n : Int) : String := if n < 10 then "0" ++ toString n else toString n

/-- The file name `get_expected_report_date().strftime('%d-%m-%Y') + ".csv"`
built for a given day number. -/
def reportFileName (day : Int) : String :=
  let c := civilFromDays day
  pad2 c.2.2 ++ "-" ++ pad2 c.2.1 ++ "-" ++ toString c.1 ++ ".csv"

/-- `check_last_report_exists`: the expected report file name is present
among the directory's files.  A directory is embedded as the list of names
of the files directly inside it. -/
def check_last_report_exists (dirFiles : List String) (t : Int) : Bool :=
  dirFiles.contains (reportFileName (get_expected_report_date t))

/-- Outcome of the subprocess execution of the entry point, matching the
except-clause classification of `run_tpt_report_downloader`: success,
timeout (`TimeoutExpired`), non-zero exit with captured error stream
(`CalledProcessError`), other unexpected fault (`Exception`), or external
interruption (`KeyboardInterrupt`, which is not an `Exception` subclass and
therefore reaches its own clause). -/
inductive ExecOutcome where
  | success
  | timeout
  | exitNonzero (stderr : String)
  | otherError
  | interrupt
deriving DecidableEq

/-- Environment oracle for one call of `run_tpt_report_downloader`:
the optional `main_script_path` config entry, whether `main.py` exists,
whether the `.venv` directory exists, whether `requirements.txt` exists,
whether the pip install exits non-zero, and the entry-point run outcome. -/
structure RunEnv where
  mainScriptPath : Option String
  mainPyExists : Bool
  venvExists : Bool
  reqExists : Bool
  pipFails : Bool
  execOutcome : ExecOutcome
deriving DecidableEq

/-- Log events emitted by `run_tpt_report_downloader`, in source order.
`errorProcessFailed` carries the `stderr` attribute of the
`CalledProcessError` (absent for the uncaptured pip subprocess). -/
inductive LogEvent where
  | errorMainPyNotFound
  | infoCreatingVenv
  | infoRunnerActivated
  | debugOutput
  | errorTimeout
  | errorProcessFailed (stderr : Option String)
  | errorUnexpected
  | debugStopped
deriving DecidableEq

/-- Result of a call: the returned boolean, or an exception escaping the
function. -/
inductive RunResult where
  | ret (b : Bool)
  | raised
deriving DecidableEq

/-- The entry-point `subprocess.run` (lines 116-127) together with the
except clauses of lines 128-135. -/
def runEntryPoint (o : ExecOutcome) (log : List LogEvent) :
    RunResult × List LogEvent :=
  let log := log ++ [LogEvent.infoRunnerActivated]
  match o with
  | .success => (.ret true, log ++ [.debugOutput])
  | .timeout => (.ret false, log ++ [.errorTimeout])
  | .exitNonzero s => (.ret false, log ++ [.errorProcessFailed (some s)])
  | .otherError => (.ret false, log ++ [.errorUnexpected])
  | .interrupt => (.ret false, log ++ [.debugStopped])

/-- `run_tpt_report_downloader`: a missing `main_script_path` key raises
`KeyError` inside the try, caught by the generic `Exception` clause; a
missing `main.py` only logs an error; a fresh venv triggers the dependency
install, whose `CalledProcessError` (from `check=True`) is caught by the
same except clause as an entry-point failure; otherwise the entry point is
executed and its outcome classified. -/
def run_tpt_report_downloader (e : RunEnv) : RunResult × List LogEvent :=
  match e.mainScriptPath with
  | none => (.ret false, [.errorUnexpected])
  | some _ =>
    let log0 : List LogEvent :=
      if e.mainPyExists then [] else [.errorMainPyNotFound]
    if e.venvExists then
      runEntryPoint e.execOutcome log0
    else
      let log1 := log0 ++ [LogEvent.infoCreatingVenv]
      if e.reqExists && e.pipFails then
        (.ret false, log1 ++ [.errorProcessFailed none])
      else
        runEntryPoint e.execOutcome log1

/-- One configured report directory: its path, the names of the files
directly inside it, and an oracle for whether the existence check raises
an exception for it. -/
structure DirSpec where
  path : String
  files : List String
  checkRaises : Bool
deriving DecidableEq

/-- The configuration mapping as read by `main`: each key is present or
absent, and accessing an absent key raises `KeyError`. -/
structure Config where
  smtp_server : Option String
  sender : Option String
  recipients : Option String
  smtp_username : Option String
  smtp_password : Option String
  report_paths : Option (List DirSpec)
deriving DecidableEq

/-- Whether `main` returned normally or an exception escaped it. -/
inductive MainOutcome where
  | ok
  | raised
deriving DecidableEq

/-- Observable trace of one run of `main`: alert emails sent, recovery-tool
invocations, paths of the directories whose check was attempted (in order),
whether the top-level handler logged a critical failure, and how the call
ended. -/
structure Trace where
  emails : Nat
  recoveries : Nat
  examined : List String
  critical : Bool
  outcome : MainOutcome
deriving DecidableEq

/-- The per-directory loop of `main` (lines 181-197) under the enclosing
try/except: a raising existence check or a failing email send is caught by
the top-level handler (critical log, normal return); the first missing
report otherwise sends one email, invokes the recovery tool once, and
returns immediately. -/
def mainLoop (sendFails : Bool) (t : Int) : List DirSpec → Trace
  | [] => ⟨0, 0, [], false, .ok⟩
  | d :: rest =>
    if d.checkRaises then
      ⟨0, 0, [d.path], true, .ok⟩
    else if check_last_report_exists d.files t then
      let tr := mainLoop sendFails t rest
      ⟨tr.emails, tr.recoveries, d.path :: tr.examined, tr.critical, tr.outcome⟩
    else if sendFails then
      ⟨0, 0, [d.path], true, .ok⟩
    else
      ⟨1, 1, [d.path], false, .ok⟩

/-- `main`: the five SMTP/recipient config reads (lines 174-178) happen
before the try block, so a missing one of those keys raises out of `main`;
the `report_paths` read happens inside the try, so its `KeyError` is caught
and logged as critical. -/
def mainRun (cfg : Config) (sendFails : Bool) (t : Int) : Trace :=
  match cfg.smtp_server, cfg.sender, cfg.recipients, cfg.smtp_username,
      cfg.smtp_password with
  | some _, some _, some _, some _, some _ =>
    match cfg.report_paths with
    | none => ⟨0, 0, [], true, .ok⟩
    | some dirs => mainLoop sendFails t dirs
  | _, _, _, _, _ => ⟨0, 0, [], false, .raised⟩

/-- All five config keys read before the try block are present. -/
def cfgComplete (cfg : Config) : Prop :=
  cfg.smtp_server ≠ none ∧ cfg.sender ≠ none ∧ cfg.recipients ≠ none ∧
    cfg.smtp_username ≠ none ∧ cfg.smtp_password ≠ none

/-- A directory holding the report expected at UTC minute 28641420. -/
def dirWithReport : DirSpec := ⟨"/data/a", ["15-06-2024.csv"], false⟩

/-- A directory missing the report expected at UTC minute 28641420. -/
def dirMissingReport : DirSpec := ⟨"/data/b", ["old.csv"], false⟩

/-- A directory after the first missing one. -/
def dirUnexamined : DirSpec := ⟨"/data/c", [], false⟩

/-- A complete configuration whose second directory is missing its report. -/
def cfgScenario : Config :=
  ⟨some "smtp.example", some "from", some "to", some "user", some "pass",
    some [dirWithReport, dirMissingReport, dirUnexamined]⟩

/-- A complete configuration where every directory has its report. -/
def cfgAllPresent : Config :=
  ⟨some "smtp.example", some "from", some "to", some "user", some "pass",
    some [dirWithReport]⟩

/-- A configuration lacking the `smtp_server` key. -/
def cfgNoSmtp : Config :=
  ⟨none, some "from", some "to", some "user", some "pass", some []⟩

/-- A complete configuration whose only directory's check raises. -/
def cfgCheckRaises : Config :=
  ⟨some "smtp.example", some "from", some "to", some "user", some "pass",
    some [⟨"/data/a", [], true⟩]⟩

/-- The environment where the config lacks `main_script_path`. -/
def envMissingKey : RunEnv := ⟨none, true, true, false, false, .success⟩

/-- The environment where a fresh venv's dependency install fails. -/
def envPipFailure : RunEnv := ⟨some "downloader", true, false, true, true, .success⟩

/-- The environment where the entry-point run times out. -/
def envTimeout : RunEnv := ⟨some "downloader", true, true, false, false, .timeout⟩

/-- The environment where `main.py` is missing but the run succeeds. -/
def envNoMainPy : RunEnv := ⟨some "downloader", false, true, false, false, .success⟩

theorem expectedOfLocal_eq (lt : Int) : expectedOfLocal lt = (lt - 1020) / 1440 := by
  unfold expectedOfLocal localDate localHour
  split <;> omega

theorem expectedOfLocal_mono {a b : Int} (h : a ≤ b) :
    expectedOfLocal a ≤ expectedOfLocal b := by
  rw [expectedOfLocal_eq, expectedOfLocal_eq]
  omega

theorem offsetOf_eq_base (base : Int) (trans : List (Int × Int)) (t : Int)
    (h : ∀ p ∈ trans, ¬ p.1 ≤ t) : offsetOf base trans t = base := by
  induction trans with
  | nil => rfl
  | cons p rest ih =>
      have hp : ¬ p.1 ≤ t := h p (List.mem_cons_self p rest)
      show offsetOf (if p.1 ≤ t then p.2 else base) rest t = base
      rw [if_neg hp]
      exact ih fun q hq => h q (List.mem_cons_of_mem p hq)

theorem offsetOf_change (base : Int) (trans : List (Int × Int)) (t : Int)
    (hsort : List.Pairwise (fun a b => a.1 < b.1) trans)
    (hne : offsetOf base trans t ≠ offsetOf base trans (t + 1)) :
    ∃ p ∈ trans, p.1 = t + 1 ∧ offsetOf base trans (t + 1) = p.2 := by
  induction trans generalizing base with
  | nil => exact absurd rfl hne
  | cons p rest ih =>
      rw [List.pairwise_cons] at hsort
      have e1 : offsetOf base (p :: rest) t =
          offsetOf (if p.1 ≤ t then p.2 else base) rest t := rfl
      have e2 : offsetOf base (p :: rest) (t + 1) =
          offsetOf (if p.1 ≤ t + 1 then p.2 else base) rest (t + 1) := rfl
      by_cases hb : (if p.1 ≤ t then p.2 else base) = (if p.1 ≤ t + 1 then p.2 else base)
      · rw [e1, e2, hb] at hne
        obtain ⟨q, hq, hq1, hq2⟩ := ih (if p.1 ≤ t + 1 then p.2 else base) hsort.2 hne
        exact ⟨q, List.mem_cons_of_mem p hq, hq1, by rw [e2, hq2]⟩
      · have ht1 : p.1 ≤ t + 1 := by
          by_contra hc
          rw [if_neg hc, if_neg (fun hx => hc (by omega))] at hb
          exact hb rfl
        have ht0 : ¬ p.1 ≤ t := by
          intro hx
          rw [if_pos hx, if_pos ht1] at hb
          exact hb rfl
        have hpt : p.1 = t + 1 := by omega
        refine ⟨p, List.mem_cons_self p rest, hpt, ?_⟩
        rw [e2, if_pos ht1]
        exact offsetOf_eq_base p.2 rest (t + 1)
          fun q hq => by have := hsort.1 q hq; omega

theorem expectedAt_step (base : Int) (trans : List (Int × Int)) (t : Int)
    (hsort : List.Pairwise (fun a b => a.1 < b.1) trans)
    (hsafe : safeTrans base trans) :
    expectedOfLocal (t + offsetOf base trans t) ≤
      expectedOfLocal (t + 1 + offsetOf base trans (t + 1)) := by
  by_cases h : offsetOf base trans t = offsetOf base trans (t + 1)
  · rw [h]
    exact expectedOfLocal_mono (by omega)
  · obtain ⟨p, hp, hp1, hp2⟩ := offsetOf_change base trans t hsort h
    have := hsafe p hp
    rw [hp1] at this
    simp only [add_sub_cancel_right] at this
    rw [hp2, ← hp1] at *
    omega

theorem expectedAt_mono (base : Int) (trans : List (Int × Int))
    (hsort : List.Pairwise (fun a b => a.1 < b.1) trans)
    (hsafe : safeTrans base trans) {t1 t2 : Int} (h : t1 ≤ t2) :
    expectedOfLocal (t1 + offsetOf base trans t1) ≤
      expectedOfLocal (t2 + offsetOf base trans t2) := by
  have key : ∀ n : Nat, ∀ t : Int,
      expectedOfLocal (t + offsetOf base trans t) ≤
        expectedOfLocal (t + n + offsetOf base trans (t + n)) := by
    intro n
    induction n with
    | zero => intro t; simp
    | succ m ihm =>
        intro t
        calc expectedOfLocal (t + offsetOf base trans t)
            ≤ expectedOfLocal (t + m + offsetOf base trans (t + m)) := ihm t
          _ ≤ expectedOfLocal (t + m + 1 + offsetOf base trans (t + m + 1)) :=
              expectedAt_step base trans (t + m) hsort hsafe
          _ = expectedOfLocal (t + (m + 1 : Nat) + offsetOf base trans (t + (m + 1 : Nat))) := by
              push_cast; ring_nf
  have hn : t2 = t1 + ((t2 - t1).toNat : Int) := by omega
  rw [hn]
  exact key (t2 - t1).toNat t1

/-- C1: `get_expected_report_date` converts the current time to US Eastern
and returns the previous calendar day's date when the local hour is strictly
below 17, and the current calendar day's date when the local hour is 17 or
greater (so at exactly 17:00:00 ET it returns today's date). -/
theorem expected_date_cutoff_rule (t : Int) :
    (localHour (localET t) < 17 →
      get_expected_report_date t = localDate (localET t) - 1) ∧
    (17 ≤ localHour (localET t) →
      get_expected_report_date t = localDate (localET t)) := by
  constructor
  · intro h
    unfold get_expected_report_date expectedOfLocal
    rw [if_pos h]
  · intro h
    unfold get_expected_report_date expectedOfLocal
    rw [if_neg (by omega)]

/-- Witness for C1 at UTC minute 28641420, which is 2024-06-15 17:00:00
US/Eastern exactly: the expected report date is that same local day. -/
theorem expected_date_cutoff_rule_witness :
    17 ≤ localHour (localET 28641420) ∧
      get_expected_report_date 28641420 = localDate (localET 28641420) :=
  ⟨by decide, (expected_date_cutoff_rule 28641420).2 (by decide)⟩

/-- C9: the expected report date is a function of the current time alone and
is monotone non-decreasing as time advances. -/
theorem expected_report_date_monotone (t1 t2 : Int) (h : t1 ≤ t2) :
    get_expected_report_date t1 ≤ get_expected_report_date t2 := by
  have hsort : List.Pairwise (fun a b => a.1 < b.1) usEasternTransitions := by decide
  have hsafe : safeTrans (-300) usEasternTransitions := by
    unfold safeTrans
    decide
  exact expectedAt_mono (-300) usEasternTransitions hsort hsafe h

/-- Witness for C9: one minute before the 17:00 ET cutoff versus the cutoff
minute itself. -/
theorem expected_report_date_monotone_witness :
    (28641419 : Int) ≤ 28641420 ∧
      get_expected_report_date 28641419 ≤ get_expected_report_date 28641420 :=
  ⟨by decide, expected_report_date_monotone 28641419 28641420 (by decide)⟩

/-- C5: the existence check is true iff a file named exactly the expected
date formatted as zero-padded `DD-MM-YYYY` plus `.csv` is directly inside
the directory, and a differently-named file never changes the result. -/
theorem report_exists_iff_named_file (dirFiles : List String) (t : Int) :
    (check_last_report_exists dirFiles t = true ↔
      reportFileName (get_expected_report_date t) ∈ dirFiles) ∧
    (∀ f, f ≠ reportFileName (get_expected_report_date t) →
      check_last_report_exists (f :: dirFiles) t =
        check_last_report_exists dirFiles t) := by
  constructor
  · simp [check_last_report_exists]
  · intro f hf
    simp only [check_last_report_exists, List.contains_cons]
    have : (reportFileName (get_expected_report_date t) == f) = false := by
      simp [Ne.symm hf]
    rw [this]
    simp

/-- Witness for C5 at the 2024-06-15 17:00 ET instant: an unrelated file
name does not change the result of the existence check. -/
theorem report_exists_iff_named_file_witness :
    "other.txt" ≠ reportFileName (get_expected_report_date 28641420) ∧
      check_last_report_exists ["other.txt", "15-06-2024.csv"] 28641420 =
        check_last_report_exists ["15-06-2024.csv"] 28641420 :=
  ⟨by decide,
    (report_exists_iff_named_file ["15-06-2024.csv"] 28641420).2
      "other.txt" (by decide)⟩

/-- C3 counterexample: when the venv is freshly created and the dependency
install fails, `run_tpt_report_downloader` returns `False` with the failure
logged by the `CalledProcessError` clause — the error does not propagate out
of the function as the claim states. -/
theorem pip_failure_counterexample :
    run_tpt_report_downloader envPipFailure =
      (.ret false, [.infoCreatingVenv, .errorProcessFailed none]) := rfl

/-- C3 amended: when the isolated environment is freshly created and the
dependency install exits non-zero, the `CalledProcessError` raised by
`check=True` is caught by the function's own except clause, logged, and the
function returns false; the error never propagates to the caller. -/
theorem pip_failure_caught (e : RunEnv)
    (hk : e.mainScriptPath ≠ none) (hv : e.venvExists = false)
    (hr : e.reqExists = true) (hp : e.pipFails = true) :
    (run_tpt_report_downloader e).1 = .ret false ∧
      .errorProcessFailed none ∈ (run_tpt_report_downloader e).2 ∧
      (run_tpt_report_downloader e).1 ≠ .raised := by
  obtain ⟨p, mp, v, r, pf, o⟩ := e
  cases p with
  | none => exact absurd rfl hk
  | some s =>
      simp only at hv hr hp
      subst hv hr hp
      cases mp <;> simp [run_tpt_report_downloader]

/-- Witness for the amended C3 at the concrete pip-failure environment. -/
theorem pip_failure_caught_witness :
    envPipFailure.mainScriptPath ≠ none ∧ envPipFailure.venvExists = false ∧
      envPipFailure.reqExists = true ∧ envPipFailure.pipFails = true ∧
      (run_tpt_report_downloader envPipFailure).1 = .ret false :=
  ⟨by decide, rfl, rfl, rfl,
    (pip_failure_caught envPipFailure (by decide) rfl rfl rfl).1⟩

/-- C4: every failure of the entry-point execution step is contained
locally and yields false: a timeout is logged; a non-zero exit is logged
with the captured standard-error text; any other fault is logged
generically; a KeyboardInterrupt is logged at debug level and not
re-raised.  The hypotheses state that the call reaches the execution step
(the config key is present and the pip path does not abort first). -/
theorem exec_failures_contained (e : RunEnv)
    (hk : e.mainScriptPath ≠ none)
    (hreach : e.venvExists = true ∨ e.reqExists = false ∨ e.pipFails = false) :
    (e.execOutcome = .timeout →
      (run_tpt_report_downloader e).1 = .ret false ∧
        .errorTimeout ∈ (run_tpt_report_downloader e).2) ∧
    (∀ s, e.execOutcome = .exitNonzero s →
      (run_tpt_report_downloader e).1 = .ret false ∧
        .errorProcessFailed (some s) ∈ (run_tpt_report_downloader e).2) ∧
    (e.execOutcome = .otherError →
      (run_tpt_report_downloader e).1 = .ret false ∧
        .errorUnexpected ∈ (run_tpt_report_downloader e).2) ∧
    (e.execOutcome = .interrupt →
      (run_tpt_report_downloader e).1 = .ret false ∧
        .debugStopped ∈ (run_tpt_report_downloader e).2) := by
  obtain ⟨p, mp, v, r, pf, o⟩ := e
  cases p with
  | none => exact absurd rfl hk
  | some s =>
      simp only at hreach
      cases v <;> cases r <;> cases pf <;> cases mp <;>
        simp_all [run_tpt_report_downloader, runEntryPoint] <;>
        cases o <;> simp_all

/-- Witness for C4 at the concrete timeout environment. -/
theorem exec_failures_contained_witness :
    envTimeout.mainScriptPath ≠ none ∧ envTimeout.venvExists = true ∧
      envTimeout.execOutcome = .timeout ∧
      ((run_tpt_report_downloader envTimeout).1 = .ret false ∧
        .errorTimeout ∈ (run_tpt_report_downloader envTimeout).2) :=
  ⟨by decide, rfl, rfl,
    (exec_failures_contained envTimeout (by decide) (Or.inl rfl)).1 rfl⟩

/-- C7: a missing entry-point file is logged as an error but does not abort
the call: the runner-activated log line is still emitted and the execution
outcome still determines the result (success still returns true). -/
theorem missing_entry_point_not_fatal (e : RunEnv)
    (hk : e.mainScriptPath ≠ none)
    (hmp : e.mainPyExists = false)
    (hreach : e.venvExists = true ∨ e.reqExists = false ∨ e.pipFails = false) :
    .errorMainPyNotFound ∈ (run_tpt_report_downloader e).2 ∧
      .infoRunnerActivated ∈ (run_tpt_report_downloader e).2 ∧
      (e.execOutcome = .success →
        (run_tpt_report_downloader e).1 = .ret true) := by
  obtain ⟨p, mp, v, r, pf, o⟩ := e
  cases p with
  | none => exact absurd rfl hk
  | some s =>
      simp only at hreach hmp
      subst hmp
      cases v <;> cases r <;> cases pf <;>
        simp_all [run_tpt_report_downloader, runEntryPoint] <;>
        cases o <;> simp_all

/-- Witness for C7 at the concrete missing-`main.py` environment. -/
theorem missing_entry_point_not_fatal_witness :
    envNoMainPy.mainScriptPath ≠ none ∧ envNoMainPy.mainPyExists = false ∧
      envNoMainPy.venvExists = true ∧
      (.errorMainPyNotFound ∈ (run_tpt_report_downloader envNoMainPy).2 ∧
        .infoRunnerActivated ∈ (run_tpt_report_downloader envNoMainPy).2) :=
  ⟨by decide, rfl, rfl,
    ⟨(missing_entry_point_not_fatal envNoMainPy (by decide) rfl (Or.inl rfl)).1,
      (missing_entry_point_not_fatal envNoMainPy (by decide) rfl (Or.inl rfl)).2.1⟩⟩

/-- C10: `run_tpt_report_downloader` always returns exactly `True` or
`False` — never `None`, and no `Exception`-derived fault escapes — and in
particular a configuration lacking `main_script_path` yields `False`
(the `KeyError` is caught by the generic except clause). -/
theorem run_downloader_total (e : RunEnv) :
    ((run_tpt_report_downloader e).1 = .ret true ∨
      (run_tpt_report_downloader e).1 = .ret false) ∧
      (run_tpt_report_downloader e).1 ≠ .raised ∧
      (e.mainScriptPath = none →
        (run_tpt_report_downloader e).1 = .ret false) := by
  obtain ⟨p, mp, v, r, pf, o⟩ := e
  cases p <;> cases v <;> cases r <;> cases pf <;> cases mp <;> cases o <;>
    simp [run_tpt_report_downloader, runEntryPoint]

/-- Witness for C10 at the concrete missing-config-key environment. -/
theorem run_downloader_total_witness :
    envMissingKey.mainScriptPath = none ∧
      (run_tpt_report_downloader envMissingKey).1 = .ret false :=
  ⟨rfl, (run_downloader_total envMissingKey).2.2 rfl⟩

theorem mainRun_eq_loop (cfg : Config) (sendFails : Bool) (t : Int)
    (hc : cfgComplete cfg) (dirs : List DirSpec)
    (hrp : cfg.report_paths = some dirs) :
    mainRun cfg sendFails t = mainLoop sendFails t dirs := by
  obtain ⟨s1, s2, s3, s4, s5, rp⟩ := cfg
  obtain ⟨h1, h2, h3, h4, h5⟩ := hc
  simp only at h1 h2 h3 h4 h5 hrp
  cases s1 <;> cases s2 <;> cases s3 <;> cases s4 <;> cases s5 <;>
    simp_all [mainRun]

theorem mainLoop_first_missing (sendFails : Bool) (t : Int)
    (pre : List DirSpec) (d : DirSpec) (post : List DirSpec)
    (hpre : ∀ d' ∈ pre, d'.checkRaises = false ∧
      check_last_report_exists d'.files t = true)
    (hd1 : d.checkRaises = false)
    (hd2 : check_last_report_exists d.files t = false)
    (hs : sendFails = false) :
    mainLoop sendFails t (pre ++ d :: post) =
      ⟨1, 1, pre.map DirSpec.path ++ [d.path], false, .ok⟩ := by
  induction pre with
  | nil => simp [mainLoop, hd1, hd2, hs]
  | cons a as ih =>
      have ha := hpre a (List.mem_cons_self a as)
      have ih2 := ih fun d' hd' => hpre d' (List.mem_cons_of_mem a hd')
      simp [mainLoop, ha.1, ha.2, ih2]

theorem mainLoop_all_present (sendFails : Bool) (t : Int)
    (dirs : List DirSpec)
    (hall : ∀ d ∈ dirs, d.checkRaises = false ∧
      check_last_report_exists d.files t = true) :
    mainLoop sendFails t dirs =
      ⟨0, 0, dirs.map DirSpec.path, false, .ok⟩ := by
  induction dirs with
  | nil => simp [mainLoop]
  | cons a as ih =>
      have ha := hall a (List.mem_cons_self a as)
      have ih2 := ih fun d' hd' => hall d' (List.mem_cons_of_mem a hd')
      simp [mainLoop, ha.1, ha.2, ih2]

theorem mainLoop_outcome_ok (sendFails : Bool) (t : Int)
    (dirs : List DirSpec) : (mainLoop sendFails t dirs).outcome = .ok := by
  induction dirs with
  | nil => rfl
  | cons a as ih =>
      simp only [mainLoop]
      split
      · rfl
      · split
        · simpa using ih
        · split <;> rfl

/-- C2: when all directories before the k-th have their report and the k-th
is missing it (its check not raising, the email send succeeding), `main`
sends exactly one alert email, invokes the recovery tool exactly once, and
returns immediately: only the first k directories are examined, the ones
after the k-th not at all. -/
theorem first_missing_alerts_once (cfg : Config) (sendFails : Bool) (t : Int)
    (pre : List DirSpec) (d : DirSpec) (post : List DirSpec)
    (hc : cfgComplete cfg)
    (hrp : cfg.report_paths = some (pre ++ d :: post))
    (hpre : ∀ d' ∈ pre, d'.checkRaises = false ∧
      check_last_report_exists d'.files t = true)
    (hd1 : d.checkRaises = false)
    (hd2 : check_last_report_exists d.files t = false)
    (hs : sendFails = false) :
    mainRun cfg sendFails t =
      ⟨1, 1, pre.map DirSpec.path ++ [d.path], false, .ok⟩ := by
  rw [mainRun_eq_loop cfg sendFails t hc (pre ++ d :: post) hrp]
  exact mainLoop_first_missing sendFails t pre d post hpre hd1 hd2 hs

/-- Witness for C2: in a three-directory configuration whose second
directory is missing its report at the 2024-06-15 17:00 ET instant, the run
sends one email, invokes recovery once, and examines only the first two
directories. -/
theorem first_missing_alerts_once_witness :
    cfgComplete cfgScenario ∧
      mainRun cfgScenario false 28641420 =
        ⟨1, 1, [dirWithReport].map DirSpec.path ++ [dirMissingReport.path],
          false, .ok⟩ :=
  ⟨⟨by decide, by decide, by decide, by decide, by decide⟩,
    first_missing_alerts_once cfgScenario false 28641420 [dirWithReport]
      dirMissingReport [dirUnexamined]
      ⟨by decide, by decide, by decide, by decide, by decide⟩ rfl
      (by decide) rfl (by decide) rfl⟩

/-- C6: when every configured directory contains its expected report, a run
of `main` sends no email and never invokes the recovery tool. -/
theorem all_present_no_alert (cfg : Config) (sendFails : Bool) (t : Int)
    (dirs : List DirSpec) (hc : cfgComplete cfg)
    (hrp : cfg.report_paths = some dirs)
    (hall : ∀ d ∈ dirs, d.checkRaises = false ∧
      check_last_report_exists d.files t = true) :
    mainRun cfg sendFails t =
      ⟨0, 0, dirs.map DirSpec.path, false, .ok⟩ := by
  rw [mainRun_eq_loop cfg sendFails t hc dirs hrp]
  exact mainLoop_all_present sendFails t dirs hall

/-- Witness for C6: the configuration whose only directory has its report
at the 2024-06-15 17:00 ET instant yields no email and no recovery. -/
theorem all_present_no_alert_witness :
    cfgComplete cfgAllPresent ∧
      mainRun cfgAllPresent false 28641420 =
        ⟨0, 0, [dirWithReport].map DirSpec.path, false, .ok⟩ :=
  ⟨⟨by decide, by decide, by decide, by decide, by decide⟩,
    all_present_no_alert cfgAllPresent false 28641420 [dirWithReport]
      ⟨by decide, by decide, by decide, by decide, by decide⟩ rfl
      (by decide)⟩

/-- C8 counterexample: a configuration lacking the `smtp_server` key makes
`main` raise — the read at line 174 happens before the try block, so this
fault is not caught by the top-level handler, refuting the claim that every
fault in `main`'s flow, including the SMTP config reads, is caught. -/
theorem config_read_fault_uncaught :
    (mainRun cfgNoSmtp false 0).outcome = .raised := rfl

theorem mainRun_none (cfg : Config) (sendFails : Bool) (t : Int)
    (hc : cfgComplete cfg) (hrp : cfg.report_paths = none) :
    mainRun cfg sendFails t = ⟨0, 0, [], true, .ok⟩ := by
  obtain ⟨s1, s2, s3, s4, s5, rp⟩ := cfg
  obtain ⟨h1, h2, h3, h4, h5⟩ := hc
  simp only at h1 h2 h3 h4 h5 hrp
  cases s1 <;> cases s2 <;> cases s3 <;> cases s4 <;> cases s5 <;>
    simp_all [mainRun]

theorem mainLoop_check_fault (sendFails : Bool) (t : Int)
    (pre : List DirSpec) (d : DirSpec) (post : List DirSpec)
    (hpre : ∀ d' ∈ pre, d'.checkRaises = false ∧
      check_last_report_exists d'.files t = true)
    (hd : d.checkRaises = true) :
    mainLoop sendFails t (pre ++ d :: post) =
      ⟨0, 0, pre.map DirSpec.path ++ [d.path], true, .ok⟩ := by
  induction pre with
  | nil => simp [mainLoop, hd]
  | cons a as ih =>
      have ha := hpre a (List.mem_cons_self a as)
      have ih2 := ih fun d' hd' => hpre d' (List.mem_cons_of_mem a hd')
      simp [mainLoop, ha.1, ha.2, ih2]

theorem mainLoop_send_fault (sendFails : Bool) (t : Int)
    (pre : List DirSpec) (d : DirSpec) (post : List DirSpec)
    (hpre : ∀ d' ∈ pre, d'.checkRaises = false ∧
      check_last_report_exists d'.files t = true)
    (hd1 : d.checkRaises = false)
    (hd2 : check_last_report_exists d.files t = false)
    (hs : sendFails = true) :
    mainLoop sendFails t (pre ++ d :: post) =
      ⟨0, 0, pre.map DirSpec.path ++ [d.path], true, .ok⟩ := by
  induction pre with
  | nil => simp [mainLoop, hd1, hd2, hs]
  | cons a as ih =>
      have ha := hpre a (List.mem_cons_self a as)
      have ih2 := ih fun d' hd' => hpre d' (List.mem_cons_of_mem a hd')
      simp [mainLoop, ha.1, ha.2, ih2]

/-- C8 amended: every fault raised inside `main`'s try block — the
`report_paths` read, a per-directory existence check raising when reached,
and a failing email send at the first missing report — is caught by the
top-level handler, logged as critical (`Trace.critical = true`), and `main`
returns normally with no further alert or recovery; the five SMTP/recipient
config reads, however, happen before the try block and a fault there
propagates out of `main`. -/
theorem loop_faults_caught (cfg : Config) (sendFails : Bool) (t : Int)
    (hc : cfgComplete cfg) :
    (mainRun cfg sendFails t).outcome = .ok ∧
    (cfg.report_paths = none →
      mainRun cfg sendFails t = ⟨0, 0, [], true, .ok⟩) ∧
    (∀ pre d post, cfg.report_paths = some (pre ++ d :: post) →
      (∀ d' ∈ pre, d'.checkRaises = false ∧
        check_last_report_exists d'.files t = true) →
      d.checkRaises = true →
      mainRun cfg sendFails t =
        ⟨0, 0, pre.map DirSpec.path ++ [d.path], true, .ok⟩) ∧
    (∀ pre d post, cfg.report_paths = some (pre ++ d :: post) →
      (∀ d' ∈ pre, d'.checkRaises = false ∧
        check_last_report_exists d'.files t = true) →
      d.checkRaises = false →
      check_last_report_exists d.files t = false →
      sendFails = true →
      mainRun cfg sendFails t =
        ⟨0, 0, pre.map DirSpec.path ++ [d.path], true, .ok⟩) := by
  refine ⟨?_, ?_, ?_, ?_⟩
  · cases hrp : cfg.report_paths with
    | none => rw [mainRun_none cfg sendFails t hc hrp]
    | some dirs =>
        rw [mainRun_eq_loop cfg sendFails t hc dirs hrp]
        exact mainLoop_outcome_ok sendFails t dirs
  · intro hrp
    exact mainRun_none cfg sendFails t hc hrp
  · intro pre d post hrp hpre hd
    rw [mainRun_eq_loop cfg sendFails t hc _ hrp]
    exact mainLoop_check_fault sendFails t pre d post hpre hd
  · intro pre d post hrp hpre hd1 hd2 hs
    rw [mainRun_eq_loop cfg sendFails t hc _ hrp]
    exact mainLoop_send_fault sendFails t pre d post hpre hd1 hd2 hs

/-- Witness for the amended C8: a complete configuration whose only
directory's existence check raises ends with the critical log recorded, no
email, no recovery, and `main` returning normally. -/
theorem loop_faults_caught_witness :
    cfgComplete cfgCheckRaises ∧
      mainRun cfgCheckRaises true 0 =
        ⟨0, 0, [("/data/a" : String)], true, .ok⟩ :=
  ⟨⟨by decide, by decide, by decide, by decide, by decide⟩,
    (loop_faults_caught cfgCheckRaises true 0
        ⟨by decide, by decide, by decide, by decide, by decide⟩).2.2.1
      [] ⟨"/data/a", [], true⟩ [] rfl
      (fun d' hd' => absurd hd' (List.not_mem_nil d')) rfl⟩

end ReportSentinel
